import Mathlib

/-!
Shallow embedding of the inventory-ledger canister
(`src/icp_rust_boilerplate_backend/src/lib.rs`).

The two `StableBTreeMap<u64, _>` stores are modelled as association lists
kept in ascending key order (the BTreeMap iterates in ascending key order).
The warehouse id pool (`WAREHOUSE_ID_COUNTER : HashSet<u64>`) is modelled as
a duplicate-free list; the item id pool (`ITEM_ID_COUNTER : Vec<u64>`) as a
list used as a stack (pop takes the last element).  `u64` values are `Nat`
with `% 2 ^ 64` applied exactly where the Rust code performs unchecked
addition; subtraction is guarded in the source, so `Nat` subtraction agrees
with it.  `time()` is threaded as an explicit `now` argument.
-/

/-- The `Error` enum of the canister: only `NotFound` and `NotEnoughStock`
exist in the source (there is no `InvalidInput` variant). -/
inductive Error where
  | NotFound (msg : String)
  | NotEnoughStock (msg : String)
deriving DecidableEq, Repr

/-- Rust `Result`, specialised to the canister's `Error` type. -/
inductive RustResult (α : Type) where
  | Ok (value : α)
  | Err (error : Error)
deriving DecidableEq, Repr

structure Warehouse where
  id : Nat
  name : String
  created_at : Nat
deriving DecidableEq, Repr

structure StockItem where
  item_id : Nat
  warehouse_id : Nat
  item_name : String
  quantity : Nat
  created_at : Nat
  updated_at : Option Nat
deriving DecidableEq, Repr

/-- Lookup in the association-list model of `StableBTreeMap` (`get`). -/
def mapGet {α : Type} (k : Nat) : List (Nat × α) → Option α
  | [] => none
  | (k', v') :: t => if k = k' then some v' else mapGet k t

/-- Insertion in ascending key order, replacing an existing binding
(`StableBTreeMap::insert`). -/
def mapInsert {α : Type} (k : Nat) (v : α) : List (Nat × α) → List (Nat × α)
  | [] => [(k, v)]
  | (k', v') :: t =>
    if k < k' then (k, v) :: (k', v') :: t
    else if k = k' then (k, v) :: t
    else (k', v') :: mapInsert k v t

/-- Removal of a key (`StableBTreeMap::remove`). -/
def mapRemove {α : Type} (k : Nat) : List (Nat × α) → List (Nat × α)
  | [] => []
  | (k', v') :: t => if k = k' then t else (k', v') :: mapRemove k t

/-- Keys strictly ascending: the invariant the BTreeMap store maintains. -/
def keysSortedB {α : Type} : List (Nat × α) → Bool
  | [] => true
  | [_] => true
  | (k1, _) :: (k2, v2) :: t => decide (k1 < k2) && keysSortedB ((k2, v2) :: t)

/-- `HashSet<u64>::iter().min()` over the modelled set. -/
def listMin : List Nat → Option Nat
  | [] => none
  | a :: t =>
    match listMin t with
    | none => some a
    | some b => some (min a b)

/-- `HashSet<u64>::insert`: idempotent insertion. -/
def hashInsert (x : Nat) (l : List Nat) : List Nat :=
  if x ∈ l then l else x :: l

/-- The whole thread-local state of the canister. -/
structure LedgerState where
  /-- `WAREHOUSE_ID_COUNTER`: set of deleted warehouse ids kept for reuse. -/
  warehouseRecycled : List Nat
  /-- `WAREHOUSE_ID_INCREMENT`: counter for fresh warehouse ids. -/
  warehouseCounter : Nat
  /-- `ITEM_ID_COUNTER`: stack of reusable item ids. -/
  itemRecycled : List Nat
  /-- `ITEM_ID_INCREMENT`: counter for fresh item ids. -/
  itemCounter : Nat
  /-- `WAREHOUSE_STORAGE`. -/
  warehouses : List (Nat × Warehouse)
  /-- `STOCK_STORAGE`. -/
  stock : List (Nat × StockItem)
deriving DecidableEq, Repr

/-- State at canister initialisation: both counters start at 1, the pools
and stores empty. -/
def initState : LedgerState :=
  { warehouseRecycled := []
    warehouseCounter := 1
    itemRecycled := []
    itemCounter := 1
    warehouses := []
    stock := [] }

/-- `get_next_warehouse_id`: smallest recycled id if any, else the counter
(which is then incremented). -/
def get_next_warehouse_id (s : LedgerState) : Nat × LedgerState :=
  match listMin s.warehouseRecycled with
  | some id => (id, { s with warehouseRecycled := s.warehouseRecycled.erase id })
  | none => (s.warehouseCounter,
      { s with warehouseCounter := (s.warehouseCounter + 1) % 2 ^ 64 })

/-- `get_next_item_id`: pop the last recyclable id if any, else the counter
(which is then incremented). -/
def get_next_item_id (s : LedgerState) : Nat × LedgerState :=
  match s.itemRecycled.getLast? with
  | some id => (id, { s with itemRecycled := s.itemRecycled.dropLast })
  | none => (s.itemCounter, { s with itemCounter := (s.itemCounter + 1) % 2 ^ 64 })

/-- `get_warehouse` query. -/
def get_warehouse (s : LedgerState) (id : Nat) : RustResult Warehouse :=
  match mapGet id s.warehouses with
  | some warehouse => .Ok warehouse
  | none => .Err (.NotFound ("A warehouse with id=" ++ toString id ++ " not found"))

/-- `add_warehouse` update call: allocates an id and inserts the record,
with no validation of the name. -/
def add_warehouse (s : LedgerState) (name : String) (now : Nat) :
    RustResult Warehouse × LedgerState :=
  let r := get_next_warehouse_id s
  let warehouse : Warehouse := { id := r.1, name := name, created_at := now }
  (.Ok warehouse, { r.2 with warehouses := mapInsert r.1 warehouse r.2.warehouses })

/-- `delete_warehouse` update call: remove the warehouse (error if absent),
recycle its id, then remove every stock item pointing at it. -/
def delete_warehouse (s : LedgerState) (warehouse_id : Nat) :
    RustResult Unit × LedgerState :=
  if (mapGet warehouse_id s.warehouses).isSome then
    let s1 := { s with warehouses := mapRemove warehouse_id s.warehouses }
    let s2 := { s1 with warehouseRecycled := hashInsert warehouse_id s1.warehouseRecycled }
    let ids := (s2.stock.filter (fun p => p.2.warehouse_id = warehouse_id)).map Prod.fst
    (.Ok (), { s2 with stock := ids.foldl (fun m i => mapRemove i m) s2.stock })
  else
    (.Err (.NotFound ("Warehouse with id=" ++ toString warehouse_id ++ " not found")),
     { s with warehouses := mapRemove warehouse_id s.warehouses })

/-- `add_item_to_warehouse` update call.  Checks only that the warehouse
exists; then merges into the first same-named item of that warehouse (key
order) with an unguarded `u64` addition, or creates a fresh record. -/
def add_item_to_warehouse (s : LedgerState) (warehouse_id : Nat)
    (item_name : String) (quantity : Nat) (now : Nat) :
    RustResult StockItem × LedgerState :=
  if (mapGet warehouse_id s.warehouses).isSome then
    match s.stock.find? (fun p => p.2.warehouse_id = warehouse_id && p.2.item_name = item_name) with
    | some (found_id, _) =>
        match mapGet found_id s.stock with
        | some existing =>
            let updated := { existing with
              quantity := (existing.quantity + quantity) % 2 ^ 64
              updated_at := some now }
            let s1 := { s with stock := mapInsert found_id updated s.stock }
            (.Ok updated, { s1 with stock := mapInsert updated.item_id updated s1.stock })
        | none =>
            (.Err (.NotFound ("Item with id=" ++ toString found_id ++ " not found")), s)
    | none =>
        let r := get_next_item_id s
        let item : StockItem :=
          { item_id := r.1, warehouse_id := warehouse_id, item_name := item_name
            quantity := quantity, created_at := now, updated_at := none }
        (.Ok item, { r.2 with stock := mapInsert item.item_id item r.2.stock })
  else
    (.Err (.NotFound ("Warehouse with id=" ++ toString warehouse_id ++ " not found")), s)

/-- `check_stock` query. -/
def check_stock (s : LedgerState) (item_id : Nat) : RustResult StockItem :=
  match mapGet item_id s.stock with
  | some stock_item => .Ok stock_item
  | none => .Err (.NotFound ("Item with id=" ++ toString item_id ++ " not found"))

/-- `delete_item` update call (the decrement operation): subtract the
requested quantity; remove the record when it reaches zero, persist it
otherwise. -/
def delete_item (s : LedgerState) (item_id quantity now : Nat) :
    RustResult StockItem × LedgerState :=
  match mapGet item_id s.stock with
  | some item =>
      if quantity > item.quantity then
        (.Err (.NotEnoughStock ("Not enough stock to delete: available="
            ++ toString item.quantity ++ ", requested=" ++ toString quantity)), s)
      else
        let item1 := { item with quantity := item.quantity - quantity, updated_at := some now }
        if item1.quantity = 0 then
          (.Ok item1, { s with stock := mapRemove item_id s.stock })
        else
          (.Ok item1, { s with stock := mapInsert item_id item1 s.stock })
  | none =>
      (.Err (.NotFound ("Item with id=" ++ toString item_id ++ " not found")), s)

/-- `transfer_item` update call: remove the source record, re-insert it on
a validation failure, otherwise persist it with the decremented quantity
and create a fresh record in the destination warehouse. -/
def transfer_item (s : LedgerState)
    (item_id from_warehouse_id to_warehouse_id quantity now : Nat) :
    RustResult Unit × LedgerState :=
  match mapGet item_id s.stock with
  | some item =>
      let stock1 := mapRemove item_id s.stock
      if item.warehouse_id ≠ from_warehouse_id then
        (.Err (.NotFound ("Item with id=" ++ toString item_id
            ++ " not found in warehouse_id=" ++ toString from_warehouse_id)),
         { s with stock := mapInsert item_id item stock1 })
      else if item.quantity < quantity then
        (.Err (.NotEnoughStock ("Not enough stock for item_id=" ++ toString item_id
            ++ ", available=" ++ toString item.quantity
            ++ ", requested=" ++ toString quantity)),
         { s with stock := mapInsert item_id item stock1 })
      else
        let item1 := { item with quantity := item.quantity - quantity, updated_at := some now }
        let stock2 := mapInsert item_id item1 stock1
        let r := get_next_item_id s
        let new_item : StockItem :=
          { item_id := r.1, warehouse_id := to_warehouse_id, item_name := item.item_name
            quantity := quantity, created_at := now, updated_at := none }
        (.Ok (), { r.2 with stock := mapInsert new_item.item_id new_item stock2 })
  | none =>
      (.Err (.NotFound ("Item with id=" ++ toString item_id ++ " not found")), s)

/-- `get_warehouse_stock` query (`list_by_warehouse`): all items of one
warehouse in ascending key order. -/
def get_warehouse_stock (s : LedgerState) (warehouse_id : Nat) : List StockItem :=
  (s.stock.filter (fun p => p.2.warehouse_id = warehouse_id)).map Prod.snd

/-- Lower bound on the first key of an association list (proof device for
the sortedness invariant). -/
def keyLB {α : Type} (b : Nat) : List (Nat × α) → Bool
  | [] => true
  | (k, _) :: _ => decide (b < k)

/-- `Result::is_ok`. -/
def isOk {α : Type} : RustResult α → Bool
  | .Ok _ => true
  | .Err _ => false

/-- States reachable from `initState` by arbitrary sequences of the public
mutating operations. -/
inductive Reachable : LedgerState → Prop where
  | init : Reachable initState
  | addWarehouse {s : LedgerState} (h : Reachable s) (name : String) (now : Nat) :
      Reachable (add_warehouse s name now).2
  | deleteWarehouse {s : LedgerState} (h : Reachable s) (warehouse_id : Nat) :
      Reachable (delete_warehouse s warehouse_id).2
  | addItem {s : LedgerState} (h : Reachable s) (warehouse_id : Nat)
      (item_name : String) (quantity now : Nat) :
      Reachable (add_item_to_warehouse s warehouse_id item_name quantity now).2
  | decrement {s : LedgerState} (h : Reachable s) (item_id quantity now : Nat) :
      Reachable (delete_item s item_id quantity now).2
  | transfer {s : LedgerState} (h : Reachable s)
      (item_id from_wid to_wid quantity now : Nat) :
      Reachable (transfer_item s item_id from_wid to_wid quantity now).2

/-- States reachable from `initState` when every `add` call has a positive
quantity whose merge addition cannot overflow, and every `transfer` call
moves a positive quantity strictly below the source item's quantity. -/
inductive ReachableR : LedgerState → Prop where
  | init : ReachableR initState
  | addWarehouse {s : LedgerState} (h : ReachableR s) (name : String) (now : Nat) :
      ReachableR (add_warehouse s name now).2
  | deleteWarehouse {s : LedgerState} (h : ReachableR s) (warehouse_id : Nat) :
      ReachableR (delete_warehouse s warehouse_id).2
  | addItem {s : LedgerState} (h : ReachableR s) (warehouse_id : Nat)
      (item_name : String) (quantity now : Nat) (hpos : 0 < quantity)
      (hnof : ∀ p ∈ s.stock, (Prod.snd p).quantity + quantity < 2 ^ 64) :
      ReachableR (add_item_to_warehouse s warehouse_id item_name quantity now).2
  | decrement {s : LedgerState} (h : ReachableR s) (item_id quantity now : Nat) :
      ReachableR (delete_item s item_id quantity now).2
  | transfer {s : LedgerState} (h : ReachableR s)
      (item_id from_wid to_wid quantity now : Nat) (hpos : 0 < quantity)
      (hlt : ∀ it, mapGet item_id s.stock = some it → quantity < it.quantity) :
      ReachableR (transfer_item s item_id from_wid to_wid quantity now).2

/-- The state of the end-to-end scenario: warehouses A (id 1) and B (id 2),
item "X" with quantity 10 held by warehouse A. -/
def exampleState : LedgerState :=
  { warehouseRecycled := [], warehouseCounter := 3, itemRecycled := [], itemCounter := 2
    warehouses := [(1, { id := 1, name := "A", created_at := 0 }),
                   (2, { id := 2, name := "B", created_at := 2 })]
    stock := [(1, { item_id := 1, warehouse_id := 1, item_name := "X", quantity := 10,
                    created_at := 1, updated_at := none })] }

/-- A state with one warehouse holding one item of quantity 5. -/
def decState : LedgerState :=
  { warehouseRecycled := [], warehouseCounter := 2, itemRecycled := [], itemCounter := 2
    warehouses := [(1, { id := 1, name := "A", created_at := 0 })]
    stock := [(1, { item_id := 1, warehouse_id := 1, item_name := "x", quantity := 5,
                    created_at := 1, updated_at := none })] }

/-- A state with one warehouse holding 5 bolts. -/
def boltState : LedgerState :=
  { warehouseRecycled := [], warehouseCounter := 2, itemRecycled := [], itemCounter := 2
    warehouses := [(1, { id := 1, name := "W1", created_at := 0 })]
    stock := [(1, { item_id := 1, warehouse_id := 1, item_name := "bolt", quantity := 5,
                    created_at := 1, updated_at := none })] }

/-- A state whose single stock item has the maximal `u64` quantity. -/
def maxQtyState : LedgerState :=
  { warehouseRecycled := [], warehouseCounter := 2, itemRecycled := [], itemCounter := 2
    warehouses := [(1, { id := 1, name := "W", created_at := 0 })]
    stock := [(1, { item_id := 1, warehouse_id := 1, item_name := "x",
                    quantity := 2 ^ 64 - 1, created_at := 0, updated_at := none })] }

/-! ### Lemmas about the association-list store model -/

theorem mapGet_insert_self {α : Type} (k : Nat) (v : α) (l : List (Nat × α)) :
    mapGet k (mapInsert k v l) = some v := by
  induction l with
  | nil => simp [mapInsert, mapGet]
  | cons h t ih =>
    obtain ⟨k', v'⟩ := h
    by_cases h1 : k < k'
    · simp [mapInsert, h1, mapGet]
    · by_cases h2 : k = k'
      · simp [mapInsert, h1, h2, mapGet]
      · simp [mapInsert, h1, h2, mapGet, ih]

theorem mapGet_insert_ne {α : Type} {k j : Nat} (v : α) (l : List (Nat × α))
    (hne : j ≠ k) : mapGet j (mapInsert k v l) = mapGet j l := by
  induction l with
  | nil => simp [mapInsert, mapGet, hne]
  | cons h t ih =>
    obtain ⟨k', v'⟩ := h
    by_cases h1 : k < k'
    · simp [mapInsert, h1, mapGet, hne]
    · by_cases h2 : k = k'
      · subst h2
        simp [mapInsert, h1, mapGet, hne]
      · simp [mapInsert, h1, h2, mapGet, ih]

theorem mem_mapInsert_self {α : Type} (k : Nat) (v : α) (l : List (Nat × α)) :
    (k, v) ∈ mapInsert k v l := by
  induction l with
  | nil => simp [mapInsert]
  | cons h t ih =>
    obtain ⟨k', v'⟩ := h
    by_cases h1 : k < k'
    · simp [mapInsert, h1]
    · by_cases h2 : k = k'
      · simp [mapInsert, h1, h2]
      · simp [mapInsert, h1, h2, ih]

theorem mem_keys_of_mapGet {α : Type} {k : Nat} {v : α} {l : List (Nat × α)}
    (h : mapGet k l = some v) : k ∈ l.map Prod.fst := by
  induction l with
  | nil => simp [mapGet] at h
  | cons hd t ih =>
    obtain ⟨k', v'⟩ := hd
    by_cases h1 : k = k'
    · simp [h1]
    · simp [mapGet, h1] at h
      simp [ih h]

theorem mapGet_eq_some_mem {α : Type} {k : Nat} {v : α} {l : List (Nat × α)}
    (h : mapGet k l = some v) : (k, v) ∈ l := by
  induction l with
  | nil => simp [mapGet] at h
  | cons hd t ih =>
    obtain ⟨k', v'⟩ := hd
    by_cases h1 : k = k'
    · simp [mapGet, h1] at h
      simp [h1, h]
    · simp [mapGet, h1] at h
      simp [ih h]

theorem keysSortedB_tail {α : Type} {p : Nat × α} {t : List (Nat × α)}
    (h : keysSortedB (p :: t) = true) : keysSortedB t = true := by
  obtain ⟨k, v⟩ := p
  cases t with
  | nil => simp [keysSortedB]
  | cons q t' =>
    obtain ⟨k2, v2⟩ := q
    simp [keysSortedB] at h ⊢
    exact h.2

theorem head_lt_of_mapGet_tail {α : Type} {k1 k : Nat} {v1 : α} {v : α}
    {t : List (Nat × α)} (hs : keysSortedB ((k1, v1) :: t) = true)
    (hg : mapGet k t = some v) : k1 < k := by
  induction t generalizing k1 v1 with
  | nil => simp [mapGet] at hg
  | cons q t' ih =>
    obtain ⟨k2, v2⟩ := q
    simp only [keysSortedB, Bool.and_eq_true, decide_eq_true_eq] at hs
    by_cases h1 : k = k2
    · omega
    · simp only [mapGet, if_neg h1] at hg
      have h3 : k2 < k := ih hs.2 hg
      omega

theorem mapGet_remove_self {α : Type} {k : Nat} {l : List (Nat × α)}
    (hs : keysSortedB l = true) : mapGet k (mapRemove k l) = none := by
  induction l with
  | nil => simp [mapRemove, mapGet]
  | cons hd t ih =>
    obtain ⟨k', v'⟩ := hd
    by_cases h1 : k = k'
    · subst h1
      simp only [mapRemove, if_pos rfl]
      cases hg : mapGet k t with
      | none => exact hg
      | some v =>
        exact absurd (head_lt_of_mapGet_tail hs hg) (lt_irrefl k)
    · simp [mapRemove, h1, mapGet, ih (keysSortedB_tail hs)]

theorem mapGet_remove_ne {α : Type} {k j : Nat} (l : List (Nat × α))
    (hne : j ≠ k) : mapGet j (mapRemove k l) = mapGet j l := by
  induction l with
  | nil => simp [mapRemove]
  | cons hd t ih =>
    obtain ⟨k', v'⟩ := hd
    by_cases h1 : k = k'
    · subst h1
      simp [mapRemove, mapGet, hne]
    · by_cases h2 : j = k'
      · simp [mapRemove, h1, mapGet, h2]
      · simp [mapRemove, h1, mapGet, h2, ih]

theorem mapInsert_remove_of_get {α : Type} {k : Nat} {v : α} {l : List (Nat × α)}
    (hs : keysSortedB l = true) (hg : mapGet k l = some v) :
    mapInsert k v (mapRemove k l) = l := by
  induction l with
  | nil => simp [mapGet] at hg
  | cons hd t ih =>
    obtain ⟨k', v'⟩ := hd
    by_cases h1 : k = k'
    · subst h1
      simp [mapGet] at hg
      subst hg
      have hrem : mapRemove k ((k, v') :: t) = t := by simp [mapRemove]
      rw [hrem]
      cases t with
      | nil => simp [mapInsert]
      | cons q t' =>
        obtain ⟨k2, v2⟩ := q
        simp only [keysSortedB, Bool.and_eq_true, decide_eq_true_eq] at hs
        simp [mapInsert, hs.1]
    · simp only [mapGet, if_neg h1] at hg
      have hlt : k' < k := head_lt_of_mapGet_tail hs hg
      simp only [mapRemove, if_neg h1]
      have h2 : ¬ k < k' := by omega
      simp [mapInsert, h2, h1, ih (keysSortedB_tail hs) hg]

theorem mem_of_mem_mapInsert {α : Type} {p : Nat × α} {k : Nat} {v : α}
    {l : List (Nat × α)} (h : p ∈ mapInsert k v l) : p = (k, v) ∨ p ∈ l := by
  induction l with
  | nil => simpa [mapInsert] using h
  | cons hd t ih =>
    obtain ⟨k', v'⟩ := hd
    by_cases h1 : k < k'
    · simp only [mapInsert, if_pos h1] at h
      exact List.mem_cons.mp h
    · by_cases h2 : k = k'
      · simp only [mapInsert, if_neg h1, if_pos h2] at h
        rcases List.mem_cons.mp h with h3 | h3
        · exact Or.inl h3
        · exact Or.inr (List.mem_cons_of_mem _ h3)
      · simp only [mapInsert, if_neg h1, if_neg h2] at h
        rcases List.mem_cons.mp h with h3 | h3
        · exact Or.inr (h3 ▸ List.mem_cons_self _ _)
        · rcases ih h3 with h4 | h4
          · exact Or.inl h4
          · exact Or.inr (List.mem_cons_of_mem _ h4)

theorem mem_of_mem_mapRemove {α : Type} {p : Nat × α} {k : Nat}
    {l : List (Nat × α)} (h : p ∈ mapRemove k l) : p ∈ l := by
  induction l with
  | nil => simp [mapRemove] at h
  | cons hd t ih =>
    obtain ⟨k', v'⟩ := hd
    by_cases h1 : k = k'
    · simp [mapRemove, h1] at h
      simp [h]
    · simp [mapRemove, h1] at h
      rcases h with h | h
      · simp [h]
      · simp [ih h]

theorem mapGet_isSome_of_mem {α : Type} {k : Nat} {v : α} {l : List (Nat × α)}
    (h : (k, v) ∈ l) : (mapGet k l).isSome = true := by
  induction l with
  | nil => simp at h
  | cons hd t ih =>
    obtain ⟨k', v'⟩ := hd
    by_cases h1 : k = k'
    · simp [mapGet, h1]
    · rcases List.mem_cons.mp h with h2 | h2
      · exact absurd (congrArg Prod.fst h2) h1
      · simp [mapGet, h1, ih h2]

theorem mapGet_of_mem_sorted {α : Type} {k : Nat} {v : α} {l : List (Nat × α)}
    (hs : keysSortedB l = true) (h : (k, v) ∈ l) : mapGet k l = some v := by
  induction l with
  | nil => simp at h
  | cons hd t ih =>
    obtain ⟨k', v'⟩ := hd
    rcases List.mem_cons.mp h with h2 | h2
    · simp only [Prod.mk.injEq] at h2
      simp [mapGet, h2.1, h2.2]
    · have hget : mapGet k t = some v := ih (keysSortedB_tail hs) h2
      have hlt : k' < k := head_lt_of_mapGet_tail hs hget
      have hne : ¬ k = k' := by omega
      simp [mapGet, hne, hget]

theorem keysSortedB_cons {α : Type} (p : Nat × α) (t : List (Nat × α)) :
    keysSortedB (p :: t) = (keyLB p.1 t && keysSortedB t) := by
  obtain ⟨k, v⟩ := p
  cases t with
  | nil => simp [keysSortedB, keyLB]
  | cons q t' =>
    obtain ⟨k2, v2⟩ := q
    simp [keysSortedB, keyLB]

theorem keysSortedB_mapRemove_aux {α : Type} (k : Nat) (l : List (Nat × α))
    (hs : keysSortedB l = true) :
    keysSortedB (mapRemove k l) = true ∧
      ∀ b, keyLB b l = true → keyLB b (mapRemove k l) = true := by
  induction l with
  | nil => simp [mapRemove, keyLB, keysSortedB]
  | cons hd t ih =>
    obtain ⟨k', v'⟩ := hd
    rw [keysSortedB_cons] at hs
    simp only [Bool.and_eq_true] at hs
    obtain ⟨hlb, hst⟩ := hs
    by_cases h1 : k = k'
    · refine ⟨by simp [mapRemove, h1, hst], ?_⟩
      intro b hb
      simp only [keyLB, decide_eq_true_eq] at hb
      simp only [mapRemove, if_pos h1]
      cases t with
      | nil => simp [keyLB]
      | cons q t' =>
        obtain ⟨k2, v2⟩ := q
        simp only [keyLB, decide_eq_true_eq] at hlb ⊢
        omega
    · obtain ⟨iha, ihb⟩ := ih hst
      constructor
      · simp only [mapRemove, if_neg h1]
        rw [keysSortedB_cons]
        simp [iha, ihb _ hlb]
      · intro b hb
        simp only [keyLB, decide_eq_true_eq] at hb
        simp [mapRemove, h1, keyLB, hb]

theorem keysSortedB_mapRemove {α : Type} (k : Nat) {l : List (Nat × α)}
    (hs : keysSortedB l = true) : keysSortedB (mapRemove k l) = true :=
  (keysSortedB_mapRemove_aux k l hs).1

theorem mapGet_none_mapRemove {α : Type} {j k : Nat} {l : List (Nat × α)}
    (h : mapGet j l = none) : mapGet j (mapRemove k l) = none := by
  by_cases h1 : j = k
  · subst h1
    cases hr : mapGet j (mapRemove j l) with
    | none => rfl
    | some v =>
      have := mapGet_isSome_of_mem (mem_of_mem_mapRemove (mapGet_eq_some_mem hr))
      rw [h] at this
      simp at this
  · rw [mapGet_remove_ne l h1, h]

theorem mapInsert_idem {α : Type} (k : Nat) (v : α) (l : List (Nat × α)) :
    mapInsert k v (mapInsert k v l) = mapInsert k v l := by
  induction l with
  | nil => simp [mapInsert]
  | cons hd t ih =>
    obtain ⟨k', v'⟩ := hd
    by_cases h1 : k < k'
    · simp [mapInsert, h1]
    · by_cases h2 : k = k'
      · simp [mapInsert, h1, h2]
      · simp [mapInsert, h1, h2, ih]

theorem length_mapInsert_of_mem {α : Type} {k : Nat} {v' : α} (v : α)
    {l : List (Nat × α)} (hs : keysSortedB l = true) (h : mapGet k l = some v') :
    (mapInsert k v l).length = l.length := by
  induction l with
  | nil => simp [mapGet] at h
  | cons hd t ih =>
    obtain ⟨k', v''⟩ := hd
    by_cases h2 : k = k'
    · have h1 : ¬ k < k' := by omega
      simp [mapInsert, h1, h2]
    · simp only [mapGet, if_neg h2] at h
      have hlt : k' < k := head_lt_of_mapGet_tail hs h
      have h1 : ¬ k < k' := by omega
      simp [mapInsert, h1, h2, ih (keysSortedB_tail hs) h]

theorem listMin_le {l : List Nat} {m : Nat} (h : listMin l = some m) :
    ∀ j ∈ l, m ≤ j := by
  induction l generalizing m with
  | nil => simp [listMin] at h
  | cons a t ih =>
    simp only [listMin] at h
    cases ht : listMin t with
    | none =>
      rw [ht] at h
      simp only [Option.some.injEq] at h
      subst h
      intro j hj
      rcases List.mem_cons.mp hj with h2 | h2
      · omega
      · exfalso
        cases t with
        | nil => simp at h2
        | cons b t' =>
          simp only [listMin] at ht
          cases hb : listMin t' <;> rw [hb] at ht <;> simp at ht
    | some b =>
      rw [ht] at h
      simp only [Option.some.injEq] at h
      subst h
      intro j hj
      rcases List.mem_cons.mp hj with h2 | h2
      · subst h2
        exact min_le_left _ _
      · exact le_trans (min_le_right a b) (ih ht j h2)

theorem listMin_mem {l : List Nat} {m : Nat} (h : listMin l = some m) : m ∈ l := by
  induction l generalizing m with
  | nil => simp [listMin] at h
  | cons a t ih =>
    simp only [listMin] at h
    cases ht : listMin t with
    | none =>
      rw [ht] at h
      simp only [Option.some.injEq] at h
      simp [h]
    | some b =>
      rw [ht] at h
      simp only [Option.some.injEq] at h
      rcases le_total a b with hab | hab
      · rw [min_eq_left hab] at h
        simp [h]
      · rw [min_eq_right hab] at h
        subst h
        exact List.mem_cons_of_mem _ (ih ht)

theorem listMin_isSome {l : List Nat} {x : Nat} (hx : x ∈ l) :
    ∃ m, listMin l = some m := by
  cases l with
  | nil => simp at hx
  | cons a t =>
    simp only [listMin]
    cases listMin t with
    | none => exact ⟨a, rfl⟩
    | some b => exact ⟨min a b, rfl⟩

theorem mem_of_mem_foldl_mapRemove {α : Type} {p : Nat × α}
    (ids : List Nat) (l : List (Nat × α))
    (h : p ∈ ids.foldl (fun m i => mapRemove i m) l) : p ∈ l := by
  induction ids generalizing l with
  | nil => simpa using h
  | cons i ids' ih =>
    simp only [List.foldl_cons] at h
    exact mem_of_mem_mapRemove (ih _ h)

theorem keysSortedB_foldl_mapRemove {α : Type} (ids : List Nat)
    {l : List (Nat × α)} (hs : keysSortedB l = true) :
    keysSortedB (ids.foldl (fun m i => mapRemove i m) l) = true := by
  induction ids generalizing l with
  | nil => simpa using hs
  | cons i ids' ih =>
    simp only [List.foldl_cons]
    exact ih (keysSortedB_mapRemove i hs)

theorem mapGet_foldl_mapRemove_none_mono {α : Type} {k : Nat} (ids : List Nat)
    {l : List (Nat × α)} (h : mapGet k l = none) :
    mapGet k (ids.foldl (fun m i => mapRemove i m) l) = none := by
  induction ids generalizing l with
  | nil => simpa using h
  | cons i ids' ih =>
    simp only [List.foldl_cons]
    exact ih (mapGet_none_mapRemove h)

theorem mapGet_foldl_mapRemove_none {α : Type} {k : Nat} {ids : List Nat}
    {l : List (Nat × α)} (hs : keysSortedB l = true) (hk : k ∈ ids) :
    mapGet k (ids.foldl (fun m i => mapRemove i m) l) = none := by
  induction ids generalizing l with
  | nil => simp at hk
  | cons i ids' ih =>
    simp only [List.foldl_cons]
    by_cases h1 : k = i
    · subst h1
      exact mapGet_foldl_mapRemove_none_mono ids' (mapGet_remove_self hs)
    · rcases List.mem_cons.mp hk with h2 | h2
      · exact absurd h2 h1
      · exact ih (keysSortedB_mapRemove i hs) h2

/-! ### Projection facts about the id allocators -/

theorem get_next_warehouse_id_stores (s : LedgerState) :
    (get_next_warehouse_id s).2.warehouses = s.warehouses ∧
      (get_next_warehouse_id s).2.stock = s.stock ∧
      (get_next_warehouse_id s).2.itemRecycled = s.itemRecycled ∧
      (get_next_warehouse_id s).2.itemCounter = s.itemCounter := by
  unfold get_next_warehouse_id
  cases listMin s.warehouseRecycled <;> simp

theorem get_next_item_id_stores (s : LedgerState) :
    (get_next_item_id s).2.warehouses = s.warehouses ∧
      (get_next_item_id s).2.stock = s.stock ∧
      (get_next_item_id s).2.warehouseRecycled = s.warehouseRecycled ∧
      (get_next_item_id s).2.warehouseCounter = s.warehouseCounter := by
  unfold get_next_item_id
  cases s.itemRecycled.getLast? <;> simp

theorem mem_hashInsert_self (x : Nat) (l : List Nat) : x ∈ hashInsert x l := by
  unfold hashInsert
  by_cases h : x ∈ l
  · simp [h]
  · simp [h]

/-! ### Claim theorems -/

/-- Claim C7, counterexample: calling `add_warehouse` with the empty name
does not fail with `InvalidInput` — it succeeds and mutates the state. -/
theorem add_warehouse_empty_name_ok :
    (add_warehouse initState "" 0).1 =
      .Ok { id := 1, name := "", created_at := 0 } ∧
    (add_warehouse initState "" 0).2.warehouses =
      [(1, { id := 1, name := "", created_at := 0 })] ∧
    (add_warehouse initState "" 0).2.warehouseCounter = 2 := by
  refine ⟨by decide, by decide, by decide⟩

/-- Claim C7, amended: `add_warehouse` performs no validation at all.  For
every state and every name — the empty string included — it succeeds,
returning a warehouse with a freshly allocated id and inserting it into the
store; no `InvalidInput` error kind even exists in the code. -/
theorem add_warehouse_no_validation (s : LedgerState) (name : String) (now : Nat) :
    (add_warehouse s name now).1 =
      .Ok { id := (get_next_warehouse_id s).1, name := name, created_at := now } ∧
    (add_warehouse s name now).2.warehouses =
      mapInsert (get_next_warehouse_id s).1
        { id := (get_next_warehouse_id s).1, name := name, created_at := now }
        s.warehouses := by
  constructor
  · rfl
  · show mapInsert (get_next_warehouse_id s).1 _ (get_next_warehouse_id s).2.warehouses = _
    rw [(get_next_warehouse_id_stores s).1]

/-- Claim C8, counterexample: on an existing warehouse, `add` with quantity
0 (and likewise with an empty item name) succeeds instead of failing with
`InvalidInput`, and it mutates the state. -/
theorem add_item_zero_qty_ok :
    (add_item_to_warehouse (add_warehouse initState "A" 0).2 1 "x" 0 1).1 =
      .Ok { item_id := 1, warehouse_id := 1, item_name := "x", quantity := 0,
            created_at := 1, updated_at := none } ∧
    (add_item_to_warehouse (add_warehouse initState "A" 0).2 1 "" 5 1).1 =
      .Ok { item_id := 1, warehouse_id := 1, item_name := "", quantity := 5,
            created_at := 1, updated_at := none } ∧
    (add_item_to_warehouse (add_warehouse initState "A" 0).2 1 "x" 0 1).2.stock =
      [(1, { item_id := 1, warehouse_id := 1, item_name := "x", quantity := 0,
             created_at := 1, updated_at := none })] := by
  refine ⟨by decide, by decide, by decide⟩

/-- Claim C8, amended: `add_item_to_warehouse` validates only the existence
of the warehouse.  With an empty `item_name` or `quantity = 0` on an
existing warehouse it still succeeds (there is no `InvalidInput` error kind
in the code). -/
theorem add_item_no_input_validation (s : LedgerState) (warehouse_id : Nat)
    (item_name : String) (quantity now : Nat)
    (hw : (mapGet warehouse_id s.warehouses).isSome = true)
    (hs : keysSortedB s.stock = true)
    (hbad : item_name = "" ∨ quantity = 0) :
    isOk (add_item_to_warehouse s warehouse_id item_name quantity now).1 = true := by
  clear hbad
  unfold add_item_to_warehouse
  rw [if_pos hw]
  cases hf : s.stock.find?
      (fun p => p.2.warehouse_id = warehouse_id && p.2.item_name = item_name) with
  | none => rfl
  | some q =>
    obtain ⟨fid, fv⟩ := q
    have hmem : (fid, fv) ∈ s.stock := List.mem_of_find?_eq_some hf
    have hget : mapGet fid s.stock = some fv := mapGet_of_mem_sorted hs hmem
    dsimp only
    rw [hget]
    rfl

/-- Claim C10: the merge addition in `add_item_to_warehouse` is an
unguarded `u64` addition.  With an existing quantity `2 ^ 64 - 1` and a
request of 1 more (sum above `u64::MAX`), the call returns `Ok` — not an
error — and the stored quantity is the sum modulo `2 ^ 64`, namely 0. -/
theorem add_overflow_wraps :
    2 ^ 64 - 1 + 1 > 2 ^ 64 - 1 ∧
    (2 ^ 64 - 1 + 1) % 2 ^ 64 = 0 ∧
    (add_item_to_warehouse maxQtyState 1 "x" 1 7).1 =
      .Ok { item_id := 1, warehouse_id := 1, item_name := "x", quantity := 0,
            created_at := 0, updated_at := some 7 } ∧
    mapGet 1 (add_item_to_warehouse maxQtyState 1 "x" 1 7).2.stock =
      some { item_id := 1, warehouse_id := 1, item_name := "x", quantity := 0,
             created_at := 0, updated_at := some 7 } := by
  refine ⟨by decide, by decide, by decide, by decide⟩

/-- Claim C4, counterexample: decrementing item 1 (quantity 5) by 5 removes
the record, but its id is NOT released to the item allocator: the recycled
list stays empty and the next item-id allocation returns the counter value
2, never the freed id 1. -/
theorem decrement_id_not_released :
    (delete_item decState 1 5 2).1 =
      .Ok { item_id := 1, warehouse_id := 1, item_name := "x", quantity := 0,
            created_at := 1, updated_at := some 2 } ∧
    check_stock (delete_item decState 1 5 2).2 1 =
      .Err (.NotFound "Item with id=1 not found") ∧
    (delete_item decState 1 5 2).2.itemRecycled = [] ∧
    (get_next_item_id (delete_item decState 1 5 2).2).1 = 2 := by
  refine ⟨by decide, by decide, by decide, by decide⟩

/-- Claim C5, counterexample: deleting warehouse 1 removes its stock item
(id 1), but that item's id is NOT released to the item allocator: the
recycled list stays empty and the next item-id allocation returns the
counter value 2. -/
theorem delete_warehouse_item_ids_not_released :
    (delete_warehouse decState 1).1 = .Ok () ∧
    (delete_warehouse decState 1).2.stock = [] ∧
    (delete_warehouse decState 1).2.itemRecycled = [] ∧
    (get_next_item_id (delete_warehouse decState 1).2).1 = 2 := by
  refine ⟨by decide, by decide, by decide, by decide⟩

/-- Claim C3, counterexample: the state obtained from `initState` by
creating warehouse A and then adding item "x" with quantity 0 is reachable
by public operations, yet its stock store holds a record with quantity 0. -/
theorem quantity_invariant_violated :
    Reachable (add_item_to_warehouse (add_warehouse initState "A" 0).2 1 "x" 0 1).2 ∧
    mapGet 1 (add_item_to_warehouse (add_warehouse initState "A" 0).2 1 "x" 0 1).2.stock =
      some { item_id := 1, warehouse_id := 1, item_name := "x", quantity := 0,
             created_at := 1, updated_at := none } := by
  constructor
  · exact Reachable.addItem (Reachable.addWarehouse Reachable.init "A" 0) 1 "x" 0 1
  · decide

/-- Claim C2: whenever `transfer_item` fails — item absent, warehouse
mismatch, or not enough stock — the entire ledger state after the call
equals the state before it (the removed record is re-inserted verbatim). -/
theorem transfer_failure_preserves_state (s : LedgerState)
    (item_id from_wid to_wid quantity now : Nat) (e : Error)
    (hs : keysSortedB s.stock = true)
    (he : (transfer_item s item_id from_wid to_wid quantity now).1 = .Err e) :
    (transfer_item s item_id from_wid to_wid quantity now).2 = s := by
  unfold transfer_item
  cases hg : mapGet item_id s.stock with
  | none => rfl
  | some item =>
    dsimp only
    by_cases h1 : item.warehouse_id ≠ from_wid
    · rw [if_pos h1]
      dsimp only
      rw [mapInsert_remove_of_get hs hg]
    · rw [if_neg h1]
      by_cases h2 : item.quantity < quantity
      · rw [if_pos h2]
        dsimp only
        rw [mapInsert_remove_of_get hs hg]
      · exfalso
        have hok : (transfer_item s item_id from_wid to_wid quantity now).1 = .Ok () := by
          unfold transfer_item
          rw [hg]
          dsimp only
          rw [if_neg h1, if_neg h2]
        rw [hok] at he
        exact RustResult.noConfusion he

/-- Claim C1: in any state holding warehouses A and B and item X of
quantity 10 in A (with a well-formed item allocator, whose next id is not a
live stock key), `transfer(X, A, B, 4)` succeeds; afterwards `get` on X
shows quantity 6 with `updated_at = now`, and warehouse B's stock contains
a new item with the same name, quantity 4, a fresh id distinct from X,
`created_at = now` and no `updated_at`. -/
theorem transfer_scenario_correct (s : LedgerState) (A B X now : Nat)
    (wA wB : Warehouse) (itemX : StockItem)
    (hA : mapGet A s.warehouses = some wA)
    (hB : mapGet B s.warehouses = some wB)
    (hX : mapGet X s.stock = some itemX)
    (hwid : itemX.warehouse_id = A)
    (hq : itemX.quantity = 10)
    (hfresh : (get_next_item_id s).1 ∉ s.stock.map Prod.fst) :
    (transfer_item s X A B 4 now).1 = .Ok () ∧
    check_stock (transfer_item s X A B 4 now).2 X =
      .Ok { itemX with quantity := 6, updated_at := some now } ∧
    (get_next_item_id s).1 ≠ X ∧
    ({ item_id := (get_next_item_id s).1, warehouse_id := B,
       item_name := itemX.item_name, quantity := 4, created_at := now,
       updated_at := none } : StockItem) ∈
      get_warehouse_stock (transfer_item s X A B 4 now).2 B := by
  have hne : (get_next_item_id s).1 ≠ X := fun h => hfresh (h ▸ mem_keys_of_mapGet hX)
  have h1 : ¬ itemX.warehouse_id ≠ A := by simp [hwid]
  have h2 : ¬ itemX.quantity < 4 := by omega
  have h6 : itemX.quantity - 4 = 6 := by omega
  have hfst : (transfer_item s X A B 4 now).1 = .Ok () := by
    unfold transfer_item
    rw [hX]
    dsimp only
    rw [if_neg h1, if_neg h2]
  have hstock : (transfer_item s X A B 4 now).2.stock =
      mapInsert (get_next_item_id s).1
        { item_id := (get_next_item_id s).1, warehouse_id := B,
          item_name := itemX.item_name, quantity := 4, created_at := now,
          updated_at := none }
        (mapInsert X { itemX with quantity := itemX.quantity - 4, updated_at := some now }
          (mapRemove X s.stock)) := by
    unfold transfer_item
    rw [hX]
    dsimp only
    rw [if_neg h1, if_neg h2]
  refine ⟨hfst, ?_, hne, ?_⟩
  · unfold check_stock
    rw [hstock]
    rw [mapGet_insert_ne _ _ (Ne.symm hne), mapGet_insert_self, h6]
  · unfold get_warehouse_stock
    rw [hstock]
    refine List.mem_map.mpr ⟨((get_next_item_id s).1,
      { item_id := (get_next_item_id s).1, warehouse_id := B,
        item_name := itemX.item_name, quantity := 4, created_at := now,
        updated_at := none }), ?_, rfl⟩
    refine List.mem_filter.mpr ⟨mem_mapInsert_self _ _ _, by simp⟩

/-- Claim C6: when warehouse W exists and holds exactly one item named n
(with quantity q), `add(W, n, p)` allocates no id and creates no record: it
returns the merged record with quantity q + p and `updated_at = now`, the
store keeps the same size, and the item allocator is untouched (stated
under the no-overflow side condition q + p < 2 ^ 64; claim C10 covers the
overflowing case). -/
theorem add_merge_rule (s : LedgerState) (W : Nat) (wr : Warehouse)
    (n : String) (p now item_id : Nat) (it : StockItem)
    (hW : mapGet W s.warehouses = some wr)
    (hs : keysSortedB s.stock = true)
    (hmem : (item_id, it) ∈ s.stock)
    (hid : it.item_id = item_id)
    (hwid : it.warehouse_id = W)
    (hname : it.item_name = n)
    (huniq : ∀ q ∈ s.stock, (Prod.snd q).warehouse_id = W →
      (Prod.snd q).item_name = n → q = (item_id, it))
    (hnof : it.quantity + p < 2 ^ 64) :
    (add_item_to_warehouse s W n p now).1 =
      .Ok { it with quantity := it.quantity + p, updated_at := some now } ∧
    (add_item_to_warehouse s W n p now).2.stock =
      mapInsert item_id { it with quantity := it.quantity + p, updated_at := some now }
        s.stock ∧
    (add_item_to_warehouse s W n p now).2.itemCounter = s.itemCounter ∧
    (add_item_to_warehouse s W n p now).2.itemRecycled = s.itemRecycled ∧
    ((add_item_to_warehouse s W n p now).2.stock).length = s.stock.length := by
  have hw' : (mapGet W s.warehouses).isSome = true := by rw [hW]; rfl
  have hfind : s.stock.find?
      (fun q => q.2.warehouse_id = W && q.2.item_name = n) = some (item_id, it) := by
    cases hf : s.stock.find? (fun q => q.2.warehouse_id = W && q.2.item_name = n) with
    | none =>
      exfalso
      have hnone := List.find?_eq_none.mp hf (item_id, it) hmem
      simp [hwid, hname] at hnone
    | some q =>
      have hpred := List.find?_some hf
      have hqmem := List.mem_of_find?_eq_some hf
      simp only [Bool.and_eq_true, decide_eq_true_eq] at hpred
      rw [huniq q hqmem hpred.1 hpred.2]
  have hget : mapGet item_id s.stock = some it := mapGet_of_mem_sorted hs hmem
  have hmod : (it.quantity + p) % 2 ^ 64 = it.quantity + p := Nat.mod_eq_of_lt hnof
  have h2 : (add_item_to_warehouse s W n p now).2.stock =
      mapInsert item_id { it with quantity := it.quantity + p, updated_at := some now }
        s.stock := by
    unfold add_item_to_warehouse
    rw [if_pos hw', hfind]
    dsimp only
    rw [hget]
    dsimp only
    rw [hmod, hid]
    exact mapInsert_idem _ _ _
  refine ⟨?_, h2, ?_, ?_, ?_⟩
  · unfold add_item_to_warehouse
    rw [if_pos hw', hfind]
    dsimp only
    rw [hget]
    dsimp only
    rw [hmod]
  · unfold add_item_to_warehouse
    rw [if_pos hw', hfind]
    dsimp only
    rw [hget]
  · unfold add_item_to_warehouse
    rw [if_pos hw', hfind]
    dsimp only
    rw [hget]
  · rw [h2]
    exact length_mapInsert_of_mem _ hs hget

/-- Claim C9: the warehouse id allocator returns the smallest member of
the recycled set when it is non-empty (removing it), and otherwise returns
the counter while incrementing it; consequently, after deleting warehouse
k, the next `add_warehouse` returns id k again provided no smaller recycled
id exists. -/
theorem warehouse_allocator_correct (s : LedgerState) (name : String) (now : Nat) :
    (∀ m, listMin s.warehouseRecycled = some m →
      (m ∈ s.warehouseRecycled ∧ ∀ j ∈ s.warehouseRecycled, m ≤ j) ∧
      (get_next_warehouse_id s).1 = m ∧
      (get_next_warehouse_id s).2.warehouseRecycled = s.warehouseRecycled.erase m) ∧
    (listMin s.warehouseRecycled = none →
      (get_next_warehouse_id s).1 = s.warehouseCounter ∧
      (get_next_warehouse_id s).2.warehouseCounter = (s.warehouseCounter + 1) % 2 ^ 64) ∧
    (∀ k w, mapGet k s.warehouses = some w →
      (∀ j ∈ (delete_warehouse s k).2.warehouseRecycled, k ≤ j) →
      (add_warehouse (delete_warehouse s k).2 name now).1 =
        .Ok { id := k, name := name, created_at := now }) := by
  refine ⟨?_, ?_, ?_⟩
  · intro m hm
    refine ⟨⟨listMin_mem hm, listMin_le hm⟩, ?_, ?_⟩
    · unfold get_next_warehouse_id
      rw [hm]
    · unfold get_next_warehouse_id
      rw [hm]
  · intro h
    unfold get_next_warehouse_id
    rw [h]
    exact ⟨rfl, rfl⟩
  · intro k w hk hmin
    have hcond : (mapGet k s.warehouses).isSome = true := by rw [hk]; rfl
    have hrec : (delete_warehouse s k).2.warehouseRecycled =
        hashInsert k s.warehouseRecycled := by
      unfold delete_warehouse
      rw [if_pos hcond]
    have hkmem : k ∈ (delete_warehouse s k).2.warehouseRecycled := by
      rw [hrec]
      exact mem_hashInsert_self k s.warehouseRecycled
    obtain ⟨m, hm⟩ := listMin_isSome hkmem
    have hmk : m = k :=
      le_antisymm (listMin_le hm k hkmem) (hmin m (listMin_mem hm))
    have hid : (get_next_warehouse_id (delete_warehouse s k).2).1 = k := by
      unfold get_next_warehouse_id
      rw [hm]
      exact hmk
    have hfst : (add_warehouse (delete_warehouse s k).2 name now).1 =
        RustResult.Ok { id := (get_next_warehouse_id (delete_warehouse s k).2).1,
                        name := name, created_at := now } := rfl
    rw [hfst, hid]

/-- Claim C4, amended: decrementing an existing item by its full quantity
removes the record (a subsequent `get` returns `NotFound`), but the item's
id is NOT released: the item allocator's recycled list and counter are
unchanged (the code never pushes onto `ITEM_ID_COUNTER`).  A decrement
leaving a positive remainder persists the record with the reduced quantity
and `updated_at = now`. -/
theorem decrement_spec_amended (s : LedgerState) (item_id now : Nat) (it : StockItem)
    (hs : keysSortedB s.stock = true)
    (hX : mapGet item_id s.stock = some it) :
    (check_stock (delete_item s item_id it.quantity now).2 item_id =
        .Err (.NotFound ("Item with id=" ++ toString item_id ++ " not found")) ∧
      (delete_item s item_id it.quantity now).2.itemRecycled = s.itemRecycled ∧
      (delete_item s item_id it.quantity now).2.itemCounter = s.itemCounter) ∧
    (∀ q, q < it.quantity →
      (delete_item s item_id q now).1 =
        .Ok { it with quantity := it.quantity - q, updated_at := some now } ∧
      mapGet item_id (delete_item s item_id q now).2.stock =
        some { it with quantity := it.quantity - q, updated_at := some now }) := by
  constructor
  · have hng : ¬ it.quantity > it.quantity := lt_irrefl _
    have hstock : (delete_item s item_id it.quantity now).2.stock =
        mapRemove item_id s.stock := by
      unfold delete_item
      rw [hX]
      dsimp only
      rw [if_neg hng, if_pos (Nat.sub_self it.quantity)]
    refine ⟨?_, ?_, ?_⟩
    · unfold check_stock
      rw [hstock, mapGet_remove_self hs]
    · unfold delete_item
      rw [hX]
      dsimp only
      rw [if_neg hng, if_pos (Nat.sub_self it.quantity)]
    · unfold delete_item
      rw [hX]
      dsimp only
      rw [if_neg hng, if_pos (Nat.sub_self it.quantity)]
  · intro q hq
    have hng : ¬ q > it.quantity := by omega
    have hnz : ¬ (it.quantity - q = 0) := by omega
    constructor
    · unfold delete_item
      rw [hX]
      dsimp only
      rw [if_neg hng, if_neg hnz]
    · have hstock : (delete_item s item_id q now).2.stock =
          mapInsert item_id { it with quantity := it.quantity - q, updated_at := some now }
            s.stock := by
        unfold delete_item
        rw [hX]
        dsimp only
        rw [if_neg hng, if_neg hnz]
      rw [hstock, mapGet_insert_self]

/-- Claim C5, amended: deleting an existing warehouse removes its record,
releases the warehouse id to the warehouse allocator, and removes every
stock item of that warehouse (a subsequent `list_by_warehouse` returns the
empty sequence) — but the deleted items' ids are NOT released: the item
allocator's recycled list and counter are unchanged. -/
theorem delete_warehouse_spec_amended (s : LedgerState) (w : Nat) (wrec : Warehouse)
    (hw : mapGet w s.warehouses = some wrec)
    (hsw : keysSortedB s.warehouses = true)
    (hss : keysSortedB s.stock = true) :
    (delete_warehouse s w).1 = .Ok () ∧
    get_warehouse (delete_warehouse s w).2 w =
      .Err (.NotFound ("A warehouse with id=" ++ toString w ++ " not found")) ∧
    w ∈ (delete_warehouse s w).2.warehouseRecycled ∧
    get_warehouse_stock (delete_warehouse s w).2 w = [] ∧
    (delete_warehouse s w).2.itemRecycled = s.itemRecycled ∧
    (delete_warehouse s w).2.itemCounter = s.itemCounter := by
  have hcond : (mapGet w s.warehouses).isSome = true := by rw [hw]; rfl
  have hwhs : (delete_warehouse s w).2.warehouses = mapRemove w s.warehouses := by
    unfold delete_warehouse
    rw [if_pos hcond]
  have hrec : (delete_warehouse s w).2.warehouseRecycled =
      hashInsert w s.warehouseRecycled := by
    unfold delete_warehouse
    rw [if_pos hcond]
  have hstock : (delete_warehouse s w).2.stock =
      ((s.stock.filter (fun p => p.2.warehouse_id = w)).map Prod.fst).foldl
        (fun m i => mapRemove i m) s.stock := by
    unfold delete_warehouse
    rw [if_pos hcond]
  refine ⟨?_, ?_, ?_, ?_, ?_, ?_⟩
  · unfold delete_warehouse
    rw [if_pos hcond]
  · unfold get_warehouse
    rw [hwhs, mapGet_remove_self hsw]
  · rw [hrec]
    exact mem_hashInsert_self _ _
  · unfold get_warehouse_stock
    rw [hstock]
    have hnil : (((s.stock.filter (fun p => p.2.warehouse_id = w)).map Prod.fst).foldl
        (fun m i => mapRemove i m) s.stock).filter
          (fun p => p.2.warehouse_id = w) = [] := by
      rw [List.filter_eq_nil_iff]
      intro p hp
      simp only [decide_eq_true_eq]
      intro hw'
      obtain ⟨k, v⟩ := p
      have hmem : (k, v) ∈ s.stock := mem_of_mem_foldl_mapRemove _ _ hp
      have hkids : k ∈ (s.stock.filter (fun p => p.2.warehouse_id = w)).map Prod.fst :=
        List.mem_map.mpr ⟨(k, v), List.mem_filter.mpr ⟨hmem, by simpa using hw'⟩, rfl⟩
      have hgn := mapGet_foldl_mapRemove_none hss hkids
      have hgs := mapGet_isSome_of_mem hp
      rw [hgn] at hgs
      simp at hgs
    rw [hnil]
    rfl
  · unfold delete_warehouse
    rw [if_pos hcond]
  · unfold delete_warehouse
    rw [if_pos hcond]

/-! ### Preservation of positive quantities (restricted reachability) -/

theorem add_warehouse_stock (s : LedgerState) (name : String) (now : Nat) :
    (add_warehouse s name now).2.stock = s.stock := by
  show (get_next_warehouse_id s).2.stock = s.stock
  exact (get_next_warehouse_id_stores s).2.1

theorem delete_warehouse_stock_subset {s : LedgerState} {w : Nat} {p : Nat × StockItem}
    (h : p ∈ (delete_warehouse s w).2.stock) : p ∈ s.stock := by
  unfold delete_warehouse at h
  by_cases hw : (mapGet w s.warehouses).isSome = true
  · rw [if_pos hw] at h
    exact mem_of_mem_foldl_mapRemove _ _ h
  · rw [if_neg hw] at h
    exact h

theorem add_item_quantity_pos {s : LedgerState} {wid : Nat} {nm : String} {q now : Nat}
    (hpos : 0 < q) (hnof : ∀ p ∈ s.stock, (Prod.snd p).quantity + q < 2 ^ 64)
    (hinv : ∀ p ∈ s.stock, 0 < (Prod.snd p).quantity) :
    ∀ p ∈ (add_item_to_warehouse s wid nm q now).2.stock, 0 < (Prod.snd p).quantity := by
  intro p hp
  unfold add_item_to_warehouse at hp
  by_cases hw : (mapGet wid s.warehouses).isSome = true
  · rw [if_pos hw] at hp
    cases hf : s.stock.find? (fun r => r.2.warehouse_id = wid && r.2.item_name = nm) with
    | none =>
      rw [hf] at hp
      dsimp only at hp
      rcases mem_of_mem_mapInsert hp with h | h
      · rw [h]
        exact hpos
      · rw [(get_next_item_id_stores s).2.1] at h
        exact hinv p h
    | some fp =>
      obtain ⟨fid, fv⟩ := fp
      rw [hf] at hp
      dsimp only at hp
      cases hg : mapGet fid s.stock with
      | none =>
        rw [hg] at hp
        exact hinv p hp
      | some existing =>
        rw [hg] at hp
        dsimp only at hp
        have hex : (fid, existing) ∈ s.stock := mapGet_eq_some_mem hg
        have hlt : existing.quantity + q < 2 ^ 64 := hnof _ hex
        have hmod : (existing.quantity + q) % 2 ^ 64 = existing.quantity + q :=
          Nat.mod_eq_of_lt hlt
        rcases mem_of_mem_mapInsert hp with h | h
        · rw [h]
          show 0 < (existing.quantity + q) % 2 ^ 64
          omega
        · rcases mem_of_mem_mapInsert h with h' | h'
          · rw [h']
            show 0 < (existing.quantity + q) % 2 ^ 64
            omega
          · exact hinv p h'
  · rw [if_neg hw] at hp
    exact hinv p hp

theorem delete_item_quantity_pos {s : LedgerState} {iid q now : Nat}
    (hinv : ∀ p ∈ s.stock, 0 < (Prod.snd p).quantity) :
    ∀ p ∈ (delete_item s iid q now).2.stock, 0 < (Prod.snd p).quantity := by
  intro p hp
  unfold delete_item at hp
  cases hg : mapGet iid s.stock with
  | none =>
    rw [hg] at hp
    exact hinv p hp
  | some item =>
    rw [hg] at hp
    dsimp only at hp
    by_cases h1 : q > item.quantity
    · rw [if_pos h1] at hp
      exact hinv p hp
    · rw [if_neg h1] at hp
      by_cases h2 : item.quantity - q = 0
      · rw [if_pos h2] at hp
        exact hinv p (mem_of_mem_mapRemove hp)
      · rw [if_neg h2] at hp
        rcases mem_of_mem_mapInsert hp with h | h
        · rw [h]
          show 0 < item.quantity - q
          omega
        · exact hinv p h

theorem transfer_quantity_pos {s : LedgerState} {iid f t q now : Nat}
    (hpos : 0 < q)
    (hlt : ∀ it, mapGet iid s.stock = some it → q < it.quantity)
    (hinv : ∀ p ∈ s.stock, 0 < (Prod.snd p).quantity) :
    ∀ p ∈ (transfer_item s iid f t q now).2.stock, 0 < (Prod.snd p).quantity := by
  intro p hp
  unfold transfer_item at hp
  cases hg : mapGet iid s.stock with
  | none =>
    rw [hg] at hp
    exact hinv p hp
  | some item =>
    rw [hg] at hp
    dsimp only at hp
    by_cases h1 : item.warehouse_id ≠ f
    · rw [if_pos h1] at hp
      rcases mem_of_mem_mapInsert hp with h | h
      · rw [h]
        exact hinv _ (mapGet_eq_some_mem hg)
      · exact hinv p (mem_of_mem_mapRemove h)
    · rw [if_neg h1] at hp
      by_cases h2 : item.quantity < q
      · rw [if_pos h2] at hp
        rcases mem_of_mem_mapInsert hp with h | h
        · rw [h]
          exact hinv _ (mapGet_eq_some_mem hg)
        · exact hinv p (mem_of_mem_mapRemove h)
      · rw [if_neg h2] at hp
        dsimp only at hp
        have hqlt : q < item.quantity := hlt item hg
        rcases mem_of_mem_mapInsert hp with h | h
        · rw [h]
          exact hpos
        · rcases mem_of_mem_mapInsert h with h' | h'
          · rw [h']
            show 0 < item.quantity - q
            omega
          · exact hinv p (mem_of_mem_mapRemove h')

/-- Claim C3, amended: under the restricted operation sequences of
`ReachableR` — every `add` has a positive, non-overflowing quantity and
every `transfer` moves a positive quantity strictly below the source
quantity — every stock record in every reachable state has a positive
quantity.  (Unrestricted sequences violate the invariant: an `add` with
quantity 0 creates a zero-quantity record, and a full-quantity `transfer`
leaves a zero-quantity source record, since `transfer_item` re-inserts the
source even when its quantity reaches 0.) -/
theorem quantity_invariant_restricted {s : LedgerState} (h : ReachableR s) :
    ∀ p ∈ s.stock, 0 < (Prod.snd p).quantity := by
  induction h with
  | init =>
    intro p hp
    simp [initState] at hp
  | addWarehouse h name now ih =>
    rw [add_warehouse_stock]
    exact ih
  | deleteWarehouse h wid ih =>
    intro p hp
    exact ih p (delete_warehouse_stock_subset hp)
  | addItem h wid nm q now hpos hnof ih =>
    exact add_item_quantity_pos hpos hnof ih
  | decrement h iid q now ih =>
    exact delete_item_quantity_pos ih
  | transfer h iid f t q now hpos hlt ih =>
    exact transfer_quantity_pos hpos hlt ih

/-! ### Witnesses: the hypothesised theorems applied at concrete inputs -/

/-- Witness for C1 on `exampleState`: transferring 4 of the 10 units of
item 1 from warehouse 1 to warehouse 2. -/
theorem transfer_scenario_correct_witness :
    (transfer_item exampleState 1 1 2 4 3).1 = .Ok () ∧
    check_stock (transfer_item exampleState 1 1 2 4 3).2 1 =
      .Ok { item_id := 1, warehouse_id := 1, item_name := "X", quantity := 6,
            created_at := 1, updated_at := some 3 } ∧
    (get_next_item_id exampleState).1 ≠ 1 ∧
    ({ item_id := (get_next_item_id exampleState).1, warehouse_id := 2,
       item_name := "X", quantity := 4, created_at := 3,
       updated_at := none } : StockItem) ∈
      get_warehouse_stock (transfer_item exampleState 1 1 2 4 3).2 2 :=
  transfer_scenario_correct exampleState 1 2 1 3
    { id := 1, name := "A", created_at := 0 }
    { id := 2, name := "B", created_at := 2 }
    { item_id := 1, warehouse_id := 1, item_name := "X", quantity := 10,
      created_at := 1, updated_at := none }
    (by decide) (by decide) (by decide) (by decide) (by decide) (by decide)

/-- Witness for C2: a warehouse-mismatch failure on `exampleState` leaves
the state untouched. -/
theorem transfer_failure_preserves_state_witness :
    (transfer_item exampleState 1 9 2 4 3).2 = exampleState :=
  transfer_failure_preserves_state exampleState 1 9 2 4 3
    (.NotFound "Item with id=1 not found in warehouse_id=9") (by decide) (by decide)

/-- Witness for the amended C3: a restricted-reachable state (warehouse A,
then item "x" added with quantity 5) has its record's quantity positive. -/
theorem quantity_invariant_restricted_witness :
    0 < (Prod.snd ((1 : Nat),
      ({ item_id := 1, warehouse_id := 1, item_name := "x", quantity := 5,
         created_at := 1, updated_at := none } : StockItem))).quantity :=
  quantity_invariant_restricted
    (ReachableR.addItem (ReachableR.addWarehouse ReachableR.init "A" 0) 1 "x" 5 1
      (by decide) (by decide))
    ((1 : Nat),
      ({ item_id := 1, warehouse_id := 1, item_name := "x", quantity := 5,
         created_at := 1, updated_at := none } : StockItem))
    (by decide)

/-- Witness for the amended C4 on `decState`: decrementing item 1 by its
full quantity 5 removes it without releasing the id; decrementing by 2
persists quantity 3 with `updated_at = 7`. -/
theorem decrement_spec_amended_witness :
    (check_stock (delete_item decState 1 5 7).2 1 =
        .Err (.NotFound "Item with id=1 not found") ∧
      (delete_item decState 1 5 7).2.itemRecycled = decState.itemRecycled ∧
      (delete_item decState 1 5 7).2.itemCounter = decState.itemCounter) ∧
    ((delete_item decState 1 2 7).1 =
        .Ok { item_id := 1, warehouse_id := 1, item_name := "x", quantity := 3,
              created_at := 1, updated_at := some 7 } ∧
      mapGet 1 (delete_item decState 1 2 7).2.stock =
        some { item_id := 1, warehouse_id := 1, item_name := "x", quantity := 3,
               created_at := 1, updated_at := some 7 }) := by
  constructor
  · exact (decrement_spec_amended decState 1 7
      { item_id := 1, warehouse_id := 1, item_name := "x", quantity := 5,
        created_at := 1, updated_at := none } (by decide) (by decide)).1
  · exact (decrement_spec_amended decState 1 7
      { item_id := 1, warehouse_id := 1, item_name := "x", quantity := 5,
        created_at := 1, updated_at := none } (by decide) (by decide)).2 2 (by decide)

/-- Witness for the amended C5 on `decState`: deleting warehouse 1 removes
its record and its stock, recycles warehouse id 1, and leaves the item
allocator untouched. -/
theorem delete_warehouse_spec_amended_witness :
    (delete_warehouse decState 1).1 = .Ok () ∧
    get_warehouse (delete_warehouse decState 1).2 1 =
      .Err (.NotFound "A warehouse with id=1 not found") ∧
    1 ∈ (delete_warehouse decState 1).2.warehouseRecycled ∧
    get_warehouse_stock (delete_warehouse decState 1).2 1 = [] ∧
    (delete_warehouse decState 1).2.itemRecycled = decState.itemRecycled ∧
    (delete_warehouse decState 1).2.itemCounter = decState.itemCounter :=
  delete_warehouse_spec_amended decState 1 { id := 1, name := "A", created_at := 0 }
    (by decide) (by decide) (by decide)

/-- Witness for C6: adding `("W1", "bolt", 3)` to `boltState` (which holds
5 bolts) merges into the single existing record, yielding quantity 8. -/
theorem add_merge_rule_witness :
    (add_item_to_warehouse boltState 1 "bolt" 3 2).1 =
      .Ok { item_id := 1, warehouse_id := 1, item_name := "bolt", quantity := 8,
            created_at := 1, updated_at := some 2 } ∧
    (add_item_to_warehouse boltState 1 "bolt" 3 2).2.stock =
      mapInsert 1 { item_id := 1, warehouse_id := 1, item_name := "bolt",
                    quantity := 8, created_at := 1, updated_at := some 2 }
        boltState.stock ∧
    (add_item_to_warehouse boltState 1 "bolt" 3 2).2.itemCounter =
      boltState.itemCounter ∧
    (add_item_to_warehouse boltState 1 "bolt" 3 2).2.itemRecycled =
      boltState.itemRecycled ∧
    ((add_item_to_warehouse boltState 1 "bolt" 3 2).2.stock).length =
      boltState.stock.length :=
  add_merge_rule boltState 1 { id := 1, name := "W1", created_at := 0 } "bolt" 3 2 1
    { item_id := 1, warehouse_id := 1, item_name := "bolt", quantity := 5,
      created_at := 1, updated_at := none }
    (by decide) (by decide) (by decide) (by decide) (by decide) (by decide)
    (by decide) (by decide)

/-- Witness for the amended C8: adding an item with empty name and zero
quantity to an existing warehouse succeeds. -/
theorem add_item_no_input_validation_witness :
    isOk (add_item_to_warehouse (add_warehouse initState "A" 0).2 1 "" 0 1).1 = true :=
  add_item_no_input_validation (add_warehouse initState "A" 0).2 1 "" 0 1
    (by decide) (by decide) (Or.inl rfl)

/-- Witness for C9: with recycled warehouse ids 5 and 3 the allocator
returns 3; deleting warehouse 1 of `decState` and re-creating yields id 1. -/
theorem warehouse_allocator_correct_witness :
    (get_next_warehouse_id
        { warehouseRecycled := [5, 3], warehouseCounter := 7, itemRecycled := [],
          itemCounter := 1, warehouses := [], stock := [] }).1 = 3 ∧
    (add_warehouse (delete_warehouse decState 1).2 "C" 9).1 =
      .Ok { id := 1, name := "C", created_at := 9 } := by
  constructor
  · exact ((warehouse_allocator_correct
      { warehouseRecycled := [5, 3], warehouseCounter := 7, itemRecycled := [],
        itemCounter := 1, warehouses := [], stock := [] } "C" 9).1 3 (by decide)).2.1
  · exact (warehouse_allocator_correct decState "C" 9).2.2 1
      { id := 1, name := "A", created_at := 0 } (by decide) (by decide)
